import Mathlib

/-!
Verification of the Ti_matweb materials-browsing service (`src/app.py`) and its
offline merge tool (`src/tools/merge_results.py`) against its design
specification.  The data model and operations below are shallow embeddings of
the Python source: SQLite cell values become `SQLVal`, a materialized table
becomes `Table`, and each HTTP handler or tool function becomes a Lean
function of the same name.
-/

namespace TiMatweb

/-- A SQLite storage cell: NULL, a numeric value (INTEGER/REAL merged, modelled
exactly as a rational), or TEXT. -/
inductive SQLVal where
  | null : SQLVal
  | num : ℚ → SQLVal
  | text : String → SQLVal
deriving DecidableEq, Repr

/-- The whitespace characters skipped by SQLite's text-to-number conversion
(C `isspace`). -/
def isSpaceChar (c : Char) : Bool :=
  c = ' ' || c = '\t' || c = '\n' || c = '\r' || c = '\x0b' || c = '\x0c'

/-- Numeric value of a decimal digit character. -/
def digitVal (c : Char) : ℕ := c.toNat - '0'.toNat

/-- Split a character list into its leading run of decimal digits and the rest. -/
def takeDigits : List Char → List Char × List Char
  | [] => ([], [])
  | c :: cs =>
      if c.isDigit then
        let p := takeDigits cs
        (c :: p.1, p.2)
      else ([], c :: cs)

/-- Value of a digit string read in base 10. -/
def digitsToNat (ds : List Char) : ℕ :=
  ds.foldl (fun a c => a * 10 + digitVal c) 0

/-- Consume an optional leading sign, returning the sign and the rest. -/
def parseSign : List Char → ℤ × List Char
  | '-' :: cs => (-1, cs)
  | '+' :: cs => (1, cs)
  | cs => (1, cs)

/-- The rational `sgn * (d1 . d2) * 10^expo` for a sign, integer digits,
fraction digits and decimal exponent, built with `mkRat` so that the kernel
can evaluate it on concrete inputs. -/
def ratOfParts (sgn : ℤ) (d1 d2 : List Char) (expo : ℤ) : ℚ :=
  mkRat (sgn * ((digitsToNat d1 * 10 ^ d2.length + digitsToNat d2 : ℕ) : ℤ)
           * ((10 ^ expo.toNat : ℕ) : ℤ))
        (10 ^ d2.length * 10 ^ (-expo).toNat)

/-- SQLite `CAST(text AS REAL)`: skip leading whitespace, then read the longest
prefix of the form [sign] digits [. digits] [e [sign] digits]; the value of
that prefix is the result, and a string with no numeric prefix yields `0.0`.
The exponent only counts when at least one digit follows the `e`. -/
def sqliteTextToReal (s : String) : ℚ :=
  let cs0 := s.data.dropWhile isSpaceChar
  let sp := parseSign cs0
  let p1 := takeDigits sp.2
  let p2 :=
    match p1.2 with
    | '.' :: rest => takeDigits rest
    | _ => ([], p1.2)
  let expo : ℤ :=
    if p1.1.length + p2.1.length = 0 then 0
    else
      match p2.2 with
      | e :: rest =>
          if e = 'e' ∨ e = 'E' then
            let es := parseSign rest
            let ed := takeDigits es.2
            if ed.1.length = 0 then 0 else es.1 * (digitsToNat ed.1 : ℤ)
          else 0
      | [] => 0
  ratOfParts sp.1 p1.1 p2.1 expo

/-- SQLite `CAST(v AS REAL)` on a stored cell: NULL stays NULL, a number is
itself, and text always converts (numeric-prefix parse, `0.0` default). -/
def castReal : SQLVal → Option ℚ
  | .null => none
  | .num q => some q
  | .text s => some (sqliteTextToReal s)

/-- The result of Python `float(str)`: NaN, a signed infinity, or a finite
value.  Finite values are modelled as exact rationals; the IEEE rounding of
finite literals to doubles (including the clamping of astronomically large
literals to infinity) is outside the rational model. -/
inductive PyNum where
  | nan : PyNum
  | pinf : PyNum
  | ninf : PyNum
  | fin : ℚ → PyNum
deriving DecidableEq, Repr

namespace PyNum

/-- Python float `<`: any comparison against NaN is false. -/
def lt : PyNum → PyNum → Bool
  | .nan, _ => false
  | _, .nan => false
  | .ninf, .ninf => false
  | .ninf, _ => true
  | _, .ninf => false
  | .pinf, _ => false
  | .fin _, .pinf => true
  | .fin a, .fin b => decide (a < b)

/-- Python float `<=`: any comparison against NaN is false. -/
def le : PyNum → PyNum → Bool
  | .nan, _ => false
  | _, .nan => false
  | .ninf, _ => true
  | _, .ninf => false
  | _, .pinf => true
  | .pinf, _ => false
  | .fin a, .fin b => decide (a ≤ b)

end PyNum

/-- Longest run of decimal digits and underscores (Python digit groups may
contain underscore separators). -/
def takeDigitsU : List Char → List Char × List Char
  | [] => ([], [])
  | c :: cs =>
      if c.isDigit || c = '_' then
        let p := takeDigitsU cs
        (c :: p.1, p.2)
      else ([], c :: cs)

/-- Tail of Python's digit-group grammar: after the leading digit, an
underscore must be followed directly by another digit. -/
def validDigitTail : List Char → Bool
  | [] => true
  | c :: cs =>
      if c = '_' then
        match cs with
        | c2 :: cs2 => c2.isDigit && validDigitTail cs2
        | [] => false
      else c.isDigit && validDigitTail cs

/-- Python's digit group `digit (["_"] digit)*`: non-empty, underscores only
strictly between digits. -/
def validDigitGroup : List Char → Bool
  | [] => false
  | c :: cs => c.isDigit && validDigitTail cs

/-- A digit group with its underscore separators removed. -/
def stripU (ds : List Char) : List Char := ds.filter fun c => !(c = '_')

/-- Python `float(s)` on a string: optional surrounding whitespace and sign,
then case-insensitively `infinity`/`inf` (signed infinity) or `nan`, or a
decimal literal — underscored digit groups, optional fraction and exponent,
at least one mantissa digit — consuming the entire string.  Finite literals
denote their exact rational value (see `PyNum`). -/
def pyFloat (s : String) : Option PyNum :=
  let cs0 := s.data.dropWhile isSpaceChar
  let sp := parseSign cs0
  let low := sp.2.map Char.toLower
  if low.take 8 = "infinity".data && (low.drop 8).dropWhile isSpaceChar = [] then
    some (if sp.1 = -1 then .ninf else .pinf)
  else if low.take 3 = "inf".data && (low.drop 3).dropWhile isSpaceChar = [] then
    some (if sp.1 = -1 then .ninf else .pinf)
  else if low.take 3 = "nan".data && (low.drop 3).dropWhile isSpaceChar = [] then
    some .nan
  else
    let p1 := takeDigitsU sp.2
    let pd :=
      match p1.2 with
      | c :: rest => if c = '.' then takeDigitsU rest else ([], p1.2)
      | [] => ([], [])
    let d1ok := p1.1.isEmpty || validDigitGroup p1.1
    let d2ok := pd.1.isEmpty || validDigitGroup pd.1
    let d1 := stripU p1.1
    let d2 := stripU pd.1
    if !(d1ok && d2ok) then none
    else if d1.length + d2.length = 0 then none
    else
      match pd.2 with
      | [] => some (.fin (ratOfParts sp.1 d1 d2 0))
      | e :: rest =>
          if e = 'e' || e = 'E' then
            let es := parseSign rest
            let ed := takeDigitsU es.2
            if validDigitGroup ed.1 && (ed.2.dropWhile isSpaceChar).isEmpty then
              some (.fin (ratOfParts sp.1 d1 d2 (es.1 * (digitsToNat (stripU ed.1) : ℤ))))
            else none
          else if ((e :: rest).dropWhile isSpaceChar).isEmpty then
            some (.fin (ratOfParts sp.1 d1 d2 0))
          else none

/-- Python `float(v)` applied to a stored cell (the `properties` loop only calls
it on non-NULL, non-empty values): numbers succeed as themselves, text succeeds
exactly when the whole string is a float literal, NaN and infinities
included. -/
def numericOf : SQLVal → Option PyNum
  | .null => none
  | .num q => some (.fin q)
  | .text s => pyFloat s

/-- A materialized `materials` table: the column names in source-header order
and the stored rows, each row's cells aligned with the column list.  A row's
SQLite `rowid` is its 1-based position. -/
structure Table where
  cols : List String
  rows : List (List SQLVal)
deriving DecidableEq, Repr

/-- The value of column `p` in a row (`NULL` when the column is absent,
matching a cell never written). -/
def getCell (cols : List String) (row : List SQLVal) (p : String) : SQLVal :=
  match cols.indexOf? p with
  | some i => row.getD i .null
  | none => .null

/-- Accepted aliases for the display-name column, in priority order
(`NAME_CANDIDATES` in `app.py`). -/
def NAME_CANDIDATES : List String := ["合金成分", "合金成份", "name", "Name"]

/-- First name-candidate present among the table's columns (the loop picking
`name_col` in `search` and `get_item`). -/
def chooseNameCol (cols : List String) : Option String :=
  NAME_CANDIDATES.find? (fun cand => cols.contains cand)

/-- The synthetic `name` column's value for a row: the first present
name-candidate's cell, or the empty string when no candidate column exists. -/
def nameValue (cols : List String) (row : List SQLVal) : SQLVal :=
  match chooseNameCol cols with
  | some nc => getCell cols row nc
  | none => .text ""

/-- One entry of the `conditions` list of a `/search` request body.  `property`
is `none` when the field is absent from the JSON object; `min`/`max` are
`none` when absent or JSON `null` (bound to SQL NULL). -/
structure Cond where
  property : Option String
  min : Option ℚ
  max : Option ℚ
deriving DecidableEq, Repr

/-- The `(prop, min, max)` triples that actually reach the SQL text: the
`search` loop skips a condition whose `property` is missing (or empty, since
Python `not ""` is true). -/
def searchConds (conds : List Cond) : List (String × Option ℚ × Option ℚ) :=
  conds.filterMap fun cd =>
    match cd.property with
    | none => none
    | some p => if p = "" then none else some (p, cd.min, cd.max)

/-- SQL `x BETWEEN lo AND hi` used as a WHERE conjunct: true (row kept) exactly
when all three operands are non-NULL and `lo ≤ x ≤ hi`; a NULL anywhere makes
the conjunct not-true, so the row is dropped. -/
def betweenHolds (x lo hi : Option ℚ) : Bool :=
  match x, lo, hi with
  | some v, some a, some b => decide (a ≤ v) && decide (v ≤ b)
  | _, _, _ => false

/-- Whether a row satisfies the generated WHERE clause
`1=1 AND CAST("p1" AS REAL) BETWEEN ? AND ? AND ...`. -/
def rowMatches (cols : List String) (row : List SQLVal) (conds : List Cond) : Bool :=
  (searchConds conds).all fun t => betweenHolds (castReal (getCell cols row t.1)) t.2.1 t.2.2

/-- The set of table rows returned by `/search` (the WHERE-filtered rows, in
the table's natural order, before the id/name projection is prepended). -/
def searchRows (t : Table) (conds : List Cond) : List (List SQLVal) :=
  t.rows.filter fun r => rowMatches t.cols r conds

/-- Full `/search` result rows: `rowid AS id`, the resolved `name`, then every
table column, for each row passing the WHERE clause. -/
def searchOutput (t : Table) (conds : List Cond) : List (List SQLVal) :=
  (t.rows.enum.filter fun p => rowMatches t.cols p.2 conds).map
    fun p => .num ((p.1 : ℚ) + 1) :: nameValue t.cols p.2 :: p.2

/-! ### Property Inspector (`/properties`) -/

/-- Column names excluded from range inspection (`id`, `name`, `category`,
compared lowercase). -/
def excludedNames : List String := ["id", "name", "category"]

/-- Python `str.lower()` as used on column names (character-wise lowering;
the names compared against are plain ASCII). -/
def lowerAscii (s : String) : String := ⟨s.data.map Char.toLower⟩

/-- All stored values of one column, in row order (`SELECT "field" FROM
materials`). -/
def colValues (t : Table) (field : String) : List SQLVal :=
  t.rows.map fun r => getCell t.cols r field

/-- Whether the `properties` loop skips a value (`v is None or v == ""`). -/
def isSkipped (v : SQLVal) : Bool := v = .null || v = .text ""

/-- The numeric parse of every non-skipped value of a column, in order, or
`none` when some non-skipped value fails `float` (the `is_numeric = False`
branch). -/
def columnNumeric : List SQLVal → Option (List PyNum)
  | [] => some []
  | v :: vs =>
      if isSkipped v then columnNumeric vs
      else
        match numericOf v with
        | none => none
        | some q => (columnNumeric vs).map fun l => q :: l

/-- Python `min(values)` over the collected floats: a left fold that keeps the
current result unless the next element compares strictly smaller — so a NaN
survives only when it is the first element, and a later NaN is never
adopted. -/
def pyListMin (q : PyNum) (qs : List PyNum) : PyNum :=
  qs.foldl (fun r x => if PyNum.lt x r then x else r) q

/-- Python `max(values)`: the dual left fold, adopting the next element only
when it compares strictly greater. -/
def pyListMax (q : PyNum) (qs : List PyNum) : PyNum :=
  qs.foldl (fun r x => if PyNum.lt r x then x else r) q

/-- The `{min, max}` entry reported for one column: present exactly when all
non-skipped values parsed and at least one did (`is_numeric and
numeric_values`). -/
def propertiesEntry (vals : List SQLVal) : Option (PyNum × PyNum) :=
  match columnNumeric vals with
  | none => none
  | some [] => none
  | some (q :: qs) => some (pyListMin q qs, pyListMax q qs)

/-- The `/properties` result: for every column not named id/name/category
(case-insensitively), its `{min, max}` entry when one qualifies. -/
def properties (t : Table) : List (String × (PyNum × PyNum)) :=
  (t.cols.filter fun f => !(excludedNames.contains (lowerAscii f))).filterMap
    fun f => (propertiesEntry (colValues t f)).map fun e => (f, e)

/-! ### Relational Materializer: statement generation -/

/-- How the materializer renders a column name into SQL text: wrap it in
double quotes (`f-string` interpolation in `init_db` / `db_upload`); no
escaping of the name's own characters is performed. -/
def quoteIdent (s : String) : String := "\"" ++ s ++ "\""

/-- The `CREATE TABLE` statement built by `db_upload` (and the spreadsheet
branch of `init_db`), every column typed TEXT. -/
def createTableSQL (columns : List String) : String :=
  "CREATE TABLE materials (" ++
    String.intercalate ", " (columns.map fun col => quoteIdent col ++ " TEXT") ++ ")"

/-- The parameterized `INSERT` statement: quoted column names and one `?`
placeholder per column; the statement text depends only on the column list. -/
def insertSQL (columns : List String) : String :=
  "INSERT INTO materials (" ++ String.intercalate ", " (columns.map quoteIdent) ++
    ") VALUES (" ++ String.intercalate ", " (columns.map fun _ => "?") ++ ")"

/-- What the driver actually executes for one row: the statement text and the
separately-bound parameter list (`c.execute(sql, vals)`); empty-source cells
arrive as NULL bindings. -/
def insertExec (columns : List String) (row : List SQLVal) : String × List SQLVal :=
  (insertSQL columns, row)

/-- SQL lexer for a double-quoted identifier, per SQLite's grammar: after the
opening `"`, characters run to the closing `"`, with `""` denoting a literal
quote inside the name.  Returns the identifier's characters and the remaining
input, or `none` when the token never closes. -/
def readQuotedBody : List Char → Option (List Char × List Char)
  | [] => none
  | c :: rest =>
      if c = '"' then
        match rest with
        | c2 :: rest2 =>
            if c2 = '"' then (readQuotedBody rest2).map fun p => (c :: p.1, p.2)
            else some ([], rest)
        | [] => some ([], [])
      else (readQuotedBody rest).map fun p => (c :: p.1, p.2)

/-- Lex one double-quoted identifier from the head of the input. -/
def readQuotedIdent : List Char → Option (List Char × List Char)
  | [] => none
  | c :: rest => if c = '"' then readQuotedBody rest else none

/-! ### Dataset Selector (`/db/select`, `/db/upload`, `/stats`, `/export`) -/

/-- Which materialized database the process-wide `CURRENT_DB` pointer names:
`MAIN_DB`, `USER_DB`, or an upload-staging `tmp_db`. -/
inductive DbRef where
  | main
  | user
  | temp
deriving DecidableEq, Repr

/-- The server's dataset state: the contents of the three database files
(`none` = the file does not exist) and the active pointer. -/
structure ServerState where
  mainDb : Option Table
  userDb : Option Table
  tempDb : Option Table
  current : DbRef
deriving DecidableEq, Repr

/-- The JSON outcome of `/db/select`: `{ok, current}` or an error with an
HTTP status. -/
inductive SelectResult where
  | ok (current : String)
  | err (msg : String) (status : ℕ)
deriving DecidableEq, Repr

/-- `/db/select`: switch to main always; switch to user copies main into a
fresh user database when none exists, failing with a 500 when main itself is
missing; any other key is a 400. -/
def db_select (st : ServerState) (key : String) : SelectResult × ServerState :=
  if key = "main" then (.ok "main", { st with current := .main })
  else if key = "user" then
    match st.userDb with
    | some _ => (.ok "user", { st with current := .user })
    | none =>
        match st.mainDb with
        | none => (.err "main db missing" 500, st)
        | some m => (.ok "user", { st with userDb := some m, current := .user })
  else (.err "unknown db" 400, st)

/-- Startup rebuild of the main database from the CSV source (the table `t` is
the freshly loaded content); only the main file is touched. -/
def update_db_from_csv (st : ServerState) (t : Table) : ServerState :=
  { st with mainDb := some t }

/-- The JSON outcome of `/db/upload`. -/
structure UploadResponse where
  ok : Bool
  current : Option String
  warn : Option String
  error : Option String
  status : ℕ
deriving DecidableEq, Repr

/-- `/db/upload` after the file-extension checks: `built` is the table
constructed from the spreadsheet in the staging database (`none` = the build
raised, answered with a 500 and an untouched state); `removeOk` and `copyOk`
say whether deleting the old user file and copying the staging database over
it succeed.  A failed copy still answers `ok` with `current = "temp"` and a
warning, pointing the active database at the staging file. -/
def db_upload (st : ServerState) (built : Option Table) (removeOk copyOk : Bool) :
    UploadResponse × ServerState :=
  match built with
  | none =>
      ({ ok := false, current := none, warn := none,
         error := some "build failed", status := 500 }, st)
  | some t =>
      if copyOk then
        ({ ok := true, current := some "user", warn := none, error := none, status := 200 },
         { st with tempDb := some t, userDb := some t, current := .user })
      else
        ({ ok := true, current := some "temp",
           warn := some "user db replace failed", error := none, status := 200 },
         { st with tempDb := some t,
                   userDb := if removeOk then none else st.userDb,
                   current := .temp })

/-- `/export`: the rows whose `rowid` (1-based position) is in the requested
id list, produced by `WHERE rowid IN (...) ORDER BY rowid` — hence in table
order, one occurrence per row. -/
def export_rows (t : Table) (ids : List ℤ) : List (List SQLVal) :=
  (t.rows.enum.filter fun p => ids.contains ((p.1 : ℤ) + 1)).map fun p => p.2

/-- `SELECT COUNT(*) FROM materials` against the active database: fails when
the database file is missing, unreadable, or holds no `materials` table. -/
def countQuery : Option Table → Except String ℕ
  | some t => .ok t.rows.length
  | none => .error "no such table: materials"

/-- `/stats`: the whole body runs under `try/except`, so any failure of the
count query collapses to `total = null`. -/
def stats (db : Option Table) : Option ℕ :=
  match countQuery db with
  | .ok n => some n
  | .error _ => none

/-! ### Row Merge Utility (`src/tools/merge_results.py`) -/

/-- A pandas cell: NA/NaN, a string, or a number. -/
inductive CVal where
  | na
  | str : String → CVal
  | num : ℚ → CVal
deriving DecidableEq, Repr

namespace CVal

/-- `is_missing` from the tool: NA, or a string that strips to empty. -/
def is_missing : CVal → Bool
  | .na => true
  | .str s => s.trim = ""
  | .num _ => false

end CVal

/-- A data-frame row: the stringified value of the `source_folder` key column,
and the cell valuation for the other columns (which of those names are real
columns is recorded on the frame). -/
structure MRow where
  key : String
  cells : String → CVal

/-- A data frame: ordered column names and rows. -/
structure Frame where
  cols : List String
  rows : List MRow

/-- `drop_duplicates(subset=[source_folder], keep="first")` over normalized
(stripped) keys: keep each key's first row. -/
def dedupByKey (seen : List String) : List MRow → List MRow
  | [] => []
  | r :: rs =>
      if seen.contains r.key.trim then dedupByKey seen rs
      else r :: dedupByKey (r.key.trim :: seen) rs

/-- `s.reindex(base index)` for one target column: the new file's cell for the
base row's normalized key, taken from the first new row with that key, or NA
when no new row matches (or the column is absent from that row's frame —
callers guard on the frame's columns). -/
def alignedCell (new : Frame) (k : String) (col : String) : CVal :=
  match (dedupByKey [] new.rows).find? (fun nr => nr.key.trim == k) with
  | some nr => nr.cells col
  | none => .na

/-- The target columns actually updated: requested columns present in the new
file (`new_map` keeps `col in new_df.columns`). -/
def effTargets (new : Frame) (targets : List String) : List String :=
  targets.filter fun c => new.cols.contains c

/-- The merged value of one base cell under the tool's update rule
(`mask = base missing & new present; base.loc[mask, col] = aligned`): for an
updated target column, fill from the new file exactly when the base cell is
missing and the aligned new cell is not; all other cells keep their base
value. -/
def mergedCellValue (new : Frame) (targets : List String) (k : String)
    (col : String) (b : CVal) : CVal :=
  if (effTargets new targets).contains col then
    let a := alignedCell new k col
    if b.is_missing && !a.is_missing then a else b
  else b

/-- One base row after the update pass: its key normalized (the tool rewrites
the key column with `normalize_key`) and each cell merged; a target column the
base lacked reads as the freshly created all-NA column. -/
def updateRow (baseCols : List String) (new : Frame) (targets : List String)
    (r : MRow) : MRow :=
  { key := r.key.trim
    cells := fun col =>
      mergedCellValue new targets r.key.trim col
        (if baseCols.contains col then r.cells col else .na) }

/-- A base row's stored cell for a column: its value when the base frame has
the column, NA otherwise (a target column the base lacks is created all-NA
before the update pass touches it). -/
def baseCellOf (base : Frame) (r : MRow) (col : String) : CVal :=
  if base.cols.contains col then r.cells col else .na

/-- The key-matched new-file cell a base row sees for a requested target
column: the aligned cell when the column is updated at all, otherwise nothing
(NA). -/
def matchedNewCell (new : Frame) (targets : List String) (r : MRow)
    (col : String) : CVal :=
  if (effTargets new targets).contains col then alignedCell new r.key.trim col
  else .na

/-- `merge_new`: update every base row in place, then append the new-file rows
whose key matches no base row, restricted to the (possibly target-extended)
base columns with NA elsewhere. -/
def merge_new (base new : Frame) (targets : List String) : Frame :=
  let updated := base.rows.map (updateRow base.cols new targets)
  let cols' := base.cols ++ (effTargets new targets).filter fun c => !(base.cols.contains c)
  let baseKeys := updated.map fun r => r.key
  let newOnly := (dedupByKey [] new.rows).filter fun nr => !(baseKeys.contains nr.key.trim)
  let appended := newOnly.map fun nr =>
    { key := nr.key.trim
      cells := fun c =>
        if cols'.contains c && new.cols.contains c then nr.cells c else .na }
  { cols := cols', rows := updated ++ appended }

/-- Example base row (spec example): composition blank, `Ti` absent. -/
def mergeBaseRow : MRow :=
  ⟨"f1", fun c => if c = "合金成分" then .str "" else .na⟩

/-- Example base frame with composition and `Ti` columns. -/
def mergeBaseFrame : Frame := ⟨["合金成分", "Ti"], [mergeBaseRow]⟩

/-- Example new-file row carrying a composition and a `Ti` value. -/
def mergeNewRow : MRow :=
  ⟨"f1", fun c => if c = "合金成分" then .str "AlTiCu"
                  else if c = "Ti" then .num 5 else .na⟩

/-- Example new-file frame. -/
def mergeNewFrame : Frame := ⟨["合金成分", "Ti"], [mergeNewRow]⟩

/-! ## Theorems -/

/-- The numeric scan of a column succeeds exactly when every non-skipped
value parses as a number. -/
theorem columnNumeric_isSome_iff (vals : List SQLVal) :
    (columnNumeric vals).isSome ↔
      ∀ v ∈ vals, isSkipped v = false → (numericOf v).isSome := by
  induction vals with
  | nil => simp [columnNumeric]
  | cons v vs ih =>
      by_cases hv : isSkipped v = true
      · simp [columnNumeric, hv, ih]
      · rw [Bool.not_eq_true] at hv
        cases hn : numericOf v with
        | none => simp [columnNumeric, hv, hn]
        | some q => simp [columnNumeric, hv, hn, ih]

/-- The collected numeric values are exactly the parses of the non-skipped
column values. -/
theorem columnNumeric_mem_iff (vals : List SQLVal) (l : List PyNum)
    (h : columnNumeric vals = some l) (q : PyNum) :
    q ∈ l ↔ ∃ v ∈ vals, isSkipped v = false ∧ numericOf v = some q := by
  induction vals generalizing l with
  | nil =>
      simp [columnNumeric] at h
      subst h
      simp
  | cons v vs ih =>
      by_cases hv : isSkipped v = true
      · rw [columnNumeric, if_pos hv] at h
        rw [ih l h]
        simp [hv]
      · rw [Bool.not_eq_true] at hv
        cases hn : numericOf v with
        | none => rw [columnNumeric, if_neg (by simp [hv]), hn] at h; cases h
        | some q' =>
            rw [columnNumeric, if_neg (by simp [hv]), hn, Option.map_eq_some'] at h
            obtain ⟨l', hl', rfl⟩ := h
            rw [List.mem_cons, ih l' hl']
            simp only [List.mem_cons]
            constructor
            · rintro (rfl | ⟨w, hw, hws, hwq⟩)
              · exact ⟨v, Or.inl rfl, hv, hn⟩
              · exact ⟨w, Or.inr hw, hws, hwq⟩
            · rintro ⟨w, (rfl | hw), hws, hwq⟩
              · rw [hn] at hwq
                exact Or.inl (Option.some.inj hwq).symm
              · exact Or.inr ⟨w, hw, hws, hwq⟩

/-- Reflexivity of the Python `<=` on non-NaN floats. -/
theorem pyle_refl {x : PyNum} (hx : x ≠ .nan) : PyNum.le x x = true := by
  cases x <;> simp_all [PyNum.le]

/-- Python `<` implies Python `<=`. -/
theorem pyle_of_pylt {x y : PyNum} (h : PyNum.lt x y = true) : PyNum.le x y = true := by
  cases x <;> cases y <;> simp_all [PyNum.lt, PyNum.le]
  exact le_of_lt h

/-- On non-NaN floats a failed Python `<` gives the reverse `<=`. -/
theorem pyle_of_not_pylt {x y : PyNum} (hx : x ≠ .nan) (hy : y ≠ .nan)
    (h : PyNum.lt x y = false) : PyNum.le y x = true := by
  cases x <;> cases y <;> simp_all [PyNum.lt, PyNum.le]

/-- Transitivity of the Python `<=` (vacuous at NaN, where `<=` never
holds). -/
theorem pyle_trans {x y z : PyNum} (hxy : PyNum.le x y = true)
    (hyz : PyNum.le y z = true) : PyNum.le x z = true := by
  cases x <;> cases y <;> cases z <;> simp_all [PyNum.le]
  exact le_trans hxy hyz

/-- Python's `min` fold always returns one of the folded values. -/
theorem pyListMin_mem (q : PyNum) (qs : List PyNum) : pyListMin q qs ∈ q :: qs := by
  induction qs generalizing q with
  | nil => exact List.mem_singleton_self _
  | cons a as ih =>
      have hstep : pyListMin q (a :: as) =
          pyListMin (if PyNum.lt a q then a else q) as := rfl
      rw [hstep]
      rcases List.mem_cons.mp (ih (if PyNum.lt a q then a else q)) with h | h
      · rw [h]
        by_cases hlt : PyNum.lt a q = true <;> simp [hlt]
      · exact List.mem_cons_of_mem _ (List.mem_cons_of_mem _ h)

/-- Python's `max` fold always returns one of the folded values. -/
theorem pyListMax_mem (q : PyNum) (qs : List PyNum) : pyListMax q qs ∈ q :: qs := by
  induction qs generalizing q with
  | nil => exact List.mem_singleton_self _
  | cons a as ih =>
      have hstep : pyListMax q (a :: as) =
          pyListMax (if PyNum.lt q a then a else q) as := rfl
      rw [hstep]
      rcases List.mem_cons.mp (ih (if PyNum.lt q a then a else q)) with h | h
      · rw [h]
        by_cases hlt : PyNum.lt q a = true <;> simp [hlt]
      · exact List.mem_cons_of_mem _ (List.mem_cons_of_mem _ h)

/-- When no folded value is NaN, Python's `min` fold bounds every folded value
from below. -/
theorem pyListMin_le (q : PyNum) (qs : List PyNum) (hq : q ≠ .nan)
    (hqs : ∀ x ∈ qs, x ≠ .nan) :
    ∀ x ∈ q :: qs, PyNum.le (pyListMin q qs) x = true := by
  induction qs generalizing q with
  | nil =>
      intro x hx
      rw [List.mem_singleton] at hx
      rw [hx]
      exact pyle_refl hq
  | cons a as ih =>
      have ha : a ≠ PyNum.nan := hqs a (List.mem_cons_self _ _)
      have has : ∀ x ∈ as, x ≠ PyNum.nan := fun x hx => hqs x (List.mem_cons_of_mem _ hx)
      have hseed : (if PyNum.lt a q then a else q) ≠ PyNum.nan := by
        by_cases hlt : PyNum.lt a q = true <;> simp [hlt, ha, hq]
      have hstep : pyListMin q (a :: as) =
          pyListMin (if PyNum.lt a q then a else q) as := rfl
      have hmain := ih _ hseed has
      have hres : PyNum.le (pyListMin q (a :: as)) (if PyNum.lt a q then a else q) = true := by
        rw [hstep]
        exact hmain _ (List.mem_cons_self _ _)
      have hseed_q : PyNum.le (if PyNum.lt a q then a else q) q = true := by
        by_cases hlt : PyNum.lt a q = true
        · rw [if_pos hlt]
          exact pyle_of_pylt hlt
        · rw [if_neg hlt]
          exact pyle_refl hq
      have hseed_a : PyNum.le (if PyNum.lt a q then a else q) a = true := by
        by_cases hlt : PyNum.lt a q = true
        · rw [if_pos hlt]
          exact pyle_refl ha
        · rw [if_neg hlt]
          exact pyle_of_not_pylt ha hq (Bool.not_eq_true _ ▸ hlt)
      intro x hx
      rcases List.mem_cons.mp hx with hxq | hx2
      · rw [hxq]
        exact pyle_trans hres hseed_q
      · rcases List.mem_cons.mp hx2 with hxa | hxas
        · rw [hxa]
          exact pyle_trans hres hseed_a
        · rw [hstep]
          exact hmain _ (List.mem_cons_of_mem _ hxas)

/-- When no folded value is NaN, Python's `max` fold bounds every folded value
from above. -/
theorem pyListMax_ge (q : PyNum) (qs : List PyNum) (hq : q ≠ .nan)
    (hqs : ∀ x ∈ qs, x ≠ .nan) :
    ∀ x ∈ q :: qs, PyNum.le x (pyListMax q qs) = true := by
  induction qs generalizing q with
  | nil =>
      intro x hx
      rw [List.mem_singleton] at hx
      rw [hx]
      exact pyle_refl hq
  | cons a as ih =>
      have ha : a ≠ PyNum.nan := hqs a (List.mem_cons_self _ _)
      have has : ∀ x ∈ as, x ≠ PyNum.nan := fun x hx => hqs x (List.mem_cons_of_mem _ hx)
      have hseed : (if PyNum.lt q a then a else q) ≠ PyNum.nan := by
        by_cases hlt : PyNum.lt q a = true <;> simp [hlt, ha, hq]
      have hstep : pyListMax q (a :: as) =
          pyListMax (if PyNum.lt q a then a else q) as := rfl
      have hmain := ih _ hseed has
      have hres : PyNum.le (if PyNum.lt q a then a else q) (pyListMax q (a :: as)) = true := by
        rw [hstep]
        exact hmain _ (List.mem_cons_self _ _)
      have hq_seed : PyNum.le q (if PyNum.lt q a then a else q) = true := by
        by_cases hlt : PyNum.lt q a = true
        · rw [if_pos hlt]
          exact pyle_of_pylt hlt
        · rw [if_neg hlt]
          exact pyle_refl hq
      have ha_seed : PyNum.le a (if PyNum.lt q a then a else q) = true := by
        by_cases hlt : PyNum.lt q a = true
        · rw [if_pos hlt]
          exact pyle_refl ha
        · rw [if_neg hlt]
          exact pyle_of_not_pylt hq ha (Bool.not_eq_true _ ▸ hlt)
      intro x hx
      rcases List.mem_cons.mp hx with hxq | hx2
      · rw [hxq]
        exact pyle_trans hq_seed hres
      · rcases List.mem_cons.mp hx2 with hxa | hxas
        · rw [hxa]
          exact pyle_trans ha_seed hres
        · rw [hstep]
          exact hmain _ (List.mem_cons_of_mem _ hxas)

/-- Membership in the `/properties` result characterized by the per-column
entry computation. -/
theorem mem_properties_iff (t : Table) (field : String) (e : PyNum × PyNum) :
    (field, e) ∈ properties t ↔
      field ∈ t.cols ∧ excludedNames.contains (lowerAscii field) = false ∧
        propertiesEntry (colValues t field) = some e := by
  unfold properties
  rw [List.mem_filterMap]
  constructor
  · rintro ⟨c, hc, hfc⟩
    rw [Option.map_eq_some'] at hfc
    obtain ⟨e', he', heq⟩ := hfc
    obtain ⟨rfl, rfl⟩ : c = field ∧ e' = e := Prod.mk.inj_iff.mp heq
    rw [List.mem_filter] at hc
    refine ⟨hc.1, ?_, he'⟩
    have h2 := hc.2
    rw [Bool.not_eq_true'] at h2
    exact h2
  · rintro ⟨hf, hx, he⟩
    refine ⟨field, List.mem_filter.mpr ⟨hf, by rw [Bool.not_eq_true', hx]⟩, by simp [he]⟩

/-- A condition whose `property` field is missing contributes nothing to the
generated WHERE clause. -/
theorem searchConds_skip_missing_property (pre post : List Cond) (c : Cond)
    (h : c.property = none) :
    searchConds (pre ++ c :: post) = searchConds (pre ++ post) := by
  simp [searchConds, List.filterMap_append, List.filterMap_cons, h]

/-- C3: calling `/search` with an empty constraint list keeps every row of the
active table, in order and with its cell values unchanged (the output rows
only prepend the synthetic rowid and display name). -/
theorem search_empty_conditions_returns_all_rows (t : Table) :
    searchRows t [] = t.rows ∧
    searchOutput t [] =
      t.rows.enum.map fun p => .num ((p.1 : ℚ) + 1) :: nameValue t.cols p.2 :: p.2 := by
  constructor
  · simp [searchRows, rowMatches, searchConds]
  · simp [searchOutput, rowMatches, searchConds]

/-- C8: a `/search` condition with a missing `property` field is silently
skipped — the result (both the filtered rows and the full projected output)
equals that of the same request with the condition removed. -/
theorem search_skips_condition_without_property (t : Table) (pre post : List Cond)
    (c : Cond) (h : c.property = none) :
    searchRows t (pre ++ c :: post) = searchRows t (pre ++ post) ∧
    searchOutput t (pre ++ c :: post) = searchOutput t (pre ++ post) := by
  have hc := searchConds_skip_missing_property pre post c h
  constructor
  · simp [searchRows, rowMatches, hc]
  · simp [searchOutput, rowMatches, hc]

/-- Witness for C8's theorem at a concrete table and condition list. -/
theorem search_skips_condition_without_property_witness :
    searchRows ⟨["p"], [[.num 3], [.num 9]]⟩
        [⟨some "p", some 0, some 5⟩, ⟨none, some 100, some 200⟩] =
      searchRows ⟨["p"], [[.num 3], [.num 9]]⟩ [⟨some "p", some 0, some 5⟩] ∧
    searchOutput ⟨["p"], [[.num 3], [.num 9]]⟩
        [⟨some "p", some 0, some 5⟩, ⟨none, some 100, some 200⟩] =
      searchOutput ⟨["p"], [[.num 3], [.num 9]]⟩ [⟨some "p", some 0, some 5⟩] :=
  search_skips_condition_without_property ⟨["p"], [[.num 3], [.num 9]]⟩
    [⟨some "p", some 0, some 5⟩] [] ⟨none, some 100, some 200⟩ rfl

/-- C10: `/stats` is total — for every state of the active database it answers
with a well-formed `total`: the row count when the count query succeeds, and
null whenever the database is missing, unreadable, or has no table. -/
theorem stats_total_is_count_or_null (db : Option Table) :
    (∀ t, db = some t → stats db = some t.rows.length) ∧
    (db = none → stats db = none) := by
  constructor
  · intro t h
    subst h
    rfl
  · intro h
    subst h
    rfl

/-- Witness for C10's theorem on a two-row table and on a missing database. -/
theorem stats_total_is_count_or_null_witness :
    stats (some ⟨["p"], [[.num 3], [.num 9]]⟩) = some 2 ∧ stats none = none :=
  ⟨(stats_total_is_count_or_null (some ⟨["p"], [[.num 3], [.num 9]]⟩)).1 _ rfl,
   (stats_total_is_count_or_null none).2 rfl⟩

/-- C6: when the uploaded spreadsheet builds successfully but copying the
staging database over the user database fails, `/db/upload` still succeeds:
it answers ok with `current = "temp"` and a warning, and the active pointer
is left on the freshly built staging table. -/
theorem upload_copy_failure_falls_back_to_temp (st : ServerState) (t : Table)
    (removeOk : Bool) :
    (db_upload st (some t) removeOk false).1 =
      { ok := true, current := some "temp", warn := some "user db replace failed",
        error := none, status := 200 } ∧
    (db_upload st (some t) removeOk false).2.current = .temp ∧
    (db_upload st (some t) removeOk false).2.tempDb = some t :=
  ⟨rfl, rfl, rfl⟩

/-- C5: selecting the user dataset when none exists copies main wholesale into
a new user database (so the user data equals main's content at that moment and
is untouched by a later rebuild of main) and marks it active; when main is
missing too, the request fails with the fatal 500 and no user database is
created. -/
theorem select_user_copies_main_or_fails (st : ServerState) (m : Table)
    (hu : st.userDb = none) :
    (st.mainDb = some m →
       (db_select st "user").1 = .ok "user" ∧
       (db_select st "user").2.userDb = some m ∧
       (db_select st "user").2.current = .user ∧
       ∀ t', (update_db_from_csv (db_select st "user").2 t').userDb = some m) ∧
    (st.mainDb = none →
       (db_select st "user").1 = .err "main db missing" 500 ∧
       (db_select st "user").2 = st) := by
  constructor
  · intro hm
    simp [db_select, hu, hm, update_db_from_csv]
  · intro hm
    simp [db_select, hu, hm]

/-- Witness for C5's theorem: a state with only a main database. -/
theorem select_user_copies_main_or_fails_witness :
    (db_select ⟨some ⟨["p"], [[.num 3]]⟩, none, none, .main⟩ "user").1 = .ok "user" ∧
    (db_select ⟨some ⟨["p"], [[.num 3]]⟩, none, none, .main⟩ "user").2.userDb =
      some ⟨["p"], [[.num 3]]⟩ ∧
    (db_select ⟨some ⟨["p"], [[.num 3]]⟩, none, none, .main⟩ "user").2.current = .user ∧
    ∀ t', (update_db_from_csv
        (db_select ⟨some ⟨["p"], [[.num 3]]⟩, none, none, .main⟩ "user").2 t').userDb =
      some ⟨["p"], [[.num 3]]⟩ :=
  (select_user_copies_main_or_fails ⟨some ⟨["p"], [[.num 3]]⟩, none, none, .main⟩
    ⟨["p"], [[.num 3]]⟩ rfl).1 rfl

/-- C9: `/export` is insensitive to the order and repetition of the requested
ids — any two id lists with the same members select the same output — and the
rowids of the exported rows are strictly increasing (ascending `ORDER BY
rowid` order, one occurrence per row). -/
theorem export_sorted_and_id_set_determined (t : Table) (ids ids2 : List ℤ)
    (h : ∀ x, x ∈ ids ↔ x ∈ ids2) :
    export_rows t ids = export_rows t ids2 ∧
    ((t.rows.enum.filter fun p => ids.contains ((p.1 : ℤ) + 1)).map
        Prod.fst).Pairwise (· < ·) := by
  constructor
  · unfold export_rows
    congr 1
    apply List.filter_congr
    intro p _
    have h1 : ids.contains ((p.1 : ℤ) + 1) = true ↔ ids2.contains ((p.1 : ℤ) + 1) = true := by
      rw [List.elem_iff, List.elem_iff]
      exact h _
    cases hb : ids.contains ((p.1 : ℤ) + 1) <;> cases hb2 : ids2.contains ((p.1 : ℤ) + 1) <;>
      simp_all
  · have hsub :
        List.Sublist
          ((t.rows.enum.filter fun p => ids.contains ((p.1 : ℤ) + 1)).map Prod.fst)
          (t.rows.enum.map Prod.fst) := (List.filter_sublist _).map _
    rw [List.enum_map_fst] at hsub
    exact (List.pairwise_lt_range _).sublist hsub

/-- Witness for C9's theorem: a three-row table with ids requested out of
order and with a repeat. -/
theorem export_sorted_and_id_set_determined_witness :
    export_rows ⟨["p"], [[.num 1], [.num 2], [.num 3]]⟩ [3, 1, 3] =
      export_rows ⟨["p"], [[.num 1], [.num 2], [.num 3]]⟩ [1, 3] ∧
    (((⟨["p"], [[.num 1], [.num 2], [.num 3]]⟩ : Table).rows.enum.filter
        fun p => List.contains [3, 1, 3] ((p.1 : ℤ) + 1)).map
        Prod.fst).Pairwise (· < ·) :=
  export_sorted_and_id_set_determined ⟨["p"], [[.num 1], [.num 2], [.num 3]]⟩
    [3, 1, 3] [1, 3] (by intro x; constructor <;> (intro hx; simp at hx ⊢; tauto))

/-- C1 counterexample: it is not true that every row whose value fails the
numeric cast is excluded from a single-constraint `/search`.  SQLite's
`CAST(... AS REAL)` maps a non-numeric text value to `0.0` rather than
failing, so the row holding `"abc"` — on which the numeric cast fails —
satisfies the constraint `[-1, 1]` and is returned. -/
theorem search_keeps_row_with_noncastable_value :
    ¬ (∀ (t : Table) (p : String) (lo hi : ℚ) (r : List SQLVal),
        r ∈ searchRows t [⟨some p, some lo, some hi⟩] →
        numericOf (getCell t.cols r p) ≠ none) := fun hall =>
  hall ⟨["p"], [[.text "abc"]]⟩ "p" (-1) 1 [.text "abc"] (by decide) (by decide)

/-- C1 (amended): for a single range constraint `(p, lo, hi)` naming an
existing column, a row is in the filtered result iff SQLite's CAST-to-REAL of
its stored value for `p` is non-NULL and lies in `[lo, hi]`: a NULL cell is
always excluded, while text casts by numeric-prefix parsing with `0.0` for
non-numeric text — such rows are kept whenever that parsed value is in
range, not excluded. -/
theorem search_single_constraint_sqlite_cast_semantics (t : Table) (p : String)
    (lo hi : ℚ) (r : List SQLVal) (_hp : p ∈ t.cols) (hne : p ≠ "") :
    r ∈ searchRows t [⟨some p, some lo, some hi⟩] ↔
      r ∈ t.rows ∧
        ∃ q, castReal (getCell t.cols r p) = some q ∧ lo ≤ q ∧ q ≤ hi := by
  have hrow : rowMatches t.cols r [⟨some p, some lo, some hi⟩] =
      betweenHolds (castReal (getCell t.cols r p)) (some lo) (some hi) := by
    simp [rowMatches, searchConds, hne]
  unfold searchRows
  rw [List.mem_filter, hrow]
  cases hcast : castReal (getCell t.cols r p) with
  | none => simp [betweenHolds]
  | some q => simp [betweenHolds]

/-- Witness for C1's amended theorem at a one-row numeric table. -/
theorem search_single_constraint_sqlite_cast_semantics_witness :
    [SQLVal.num 0] ∈ searchRows ⟨["p"], [[.num 0]]⟩ [⟨some "p", some (-1), some 1⟩] ↔
      [SQLVal.num 0] ∈ (⟨["p"], [[.num 0]]⟩ : Table).rows ∧
        ∃ q, castReal (getCell (⟨["p"], [[.num 0]]⟩ : Table).cols [SQLVal.num 0] "p") =
            some q ∧ -1 ≤ q ∧ q ≤ 1 :=
  search_single_constraint_sqlite_cast_semantics ⟨["p"], [[.num 0]]⟩ "p" (-1) 1
    [SQLVal.num 0] (by decide) (by decide)

/-- C4 counterexample: the materializer's quoting is not an escape — it only
wraps the name in double quotes — so a column name that itself contains a
double quote is misparsed by the SQL lexer.  At the name
`a"b`, the rendered token lexes as the identifier `a` with the leftover
trailing text, not as the original name. -/
theorem quoted_identifier_escaping_claim_false :
    ¬ (∀ (s : String) (rest : List Char),
        readQuotedIdent ((quoteIdent s).data ++ rest) = some (s.data, rest)) :=
  fun hall => absurd (hall "a\"b" []) (by decide)

/-- A quote-free identifier body runs to the closing quote and is returned
verbatim (provided the following text does not begin with another quote,
which would read as an escaped quote; the generated statements always
continue with a space, comma or parenthesis). -/
theorem readQuotedBody_closes (cs rest : List Char) (h : '"' ∉ cs)
    (hrest : rest.head? ≠ some '"') :
    readQuotedBody (cs ++ '"' :: rest) = some (cs, rest) := by
  induction cs with
  | nil =>
      cases rest with
      | nil => rfl
      | cons c2 rest2 =>
          have hne : ¬ c2 = '"' := by
            intro he
            exact hrest (by simp [he])
          simp [readQuotedBody, hne]
  | cons c cs ih =>
      have hc : ¬ c = '"' := fun he => h (by simp [he])
      have hcs : '"' ∉ cs := fun hm => h (List.mem_cons_of_mem _ hm)
      rw [List.cons_append]
      unfold readQuotedBody
      rw [if_neg hc, ih hcs]
      rfl

/-- C4 (amended): for every column name not containing a double-quote
character — arbitrary multi-byte and symbol characters included — the
rendered identifier lexes back to exactly the original name with the rest of
the statement untouched; and row insertion is positionally parameterized: the
statement text is independent of the row's values, which are passed unaltered
(NULL included) as the separate bound-parameter list. -/
theorem quoting_roundtrip_and_positional_binding (s : String) (rest : List Char)
    (hs : '"' ∉ s.data) (hrest : rest.head? ≠ some '"') :
    readQuotedIdent ((quoteIdent s).data ++ rest) = some (s.data, rest) ∧
    (∀ cols r1 r2, (insertExec cols r1).1 = (insertExec cols r2).1) ∧
    (∀ cols row, (insertExec cols row).2 = row) := by
  refine ⟨?_, fun cols r1 r2 => rfl, fun cols row => rfl⟩
  have hdata : (quoteIdent s).data ++ rest = '"' :: (s.data ++ '"' :: rest) := by
    simp [quoteIdent]
  rw [hdata]
  simpa [readQuotedIdent] using readQuotedBody_closes s.data rest hs hrest

/-- Witness for C4's amended theorem at a multi-byte, symbol-laden column name
followed by the type suffix the CREATE TABLE statement appends. -/
theorem quoting_roundtrip_and_positional_binding_witness :
    readQuotedIdent ((quoteIdent "合金成分(wt%)").data ++ (" TEXT").data) =
      some (("合金成分(wt%)").data, (" TEXT").data) ∧
    (∀ cols r1 r2, (insertExec cols r1).1 = (insertExec cols r2).1) ∧
    (∀ cols row, (insertExec cols row).2 = row) :=
  quoting_roundtrip_and_positional_binding "合金成分(wt%)" (" TEXT").data
    (by decide) (by decide)

/-- C7: for every base row and requested target column, the merged value is
the new file's key-matched cell exactly when the base cell is missing/blank
and that matched cell is non-blank, and is the base cell otherwise — in
particular a non-blank base cell is never overwritten.  The updated row is
what `merge_new` emits for this base row. -/
theorem merge_new_fills_only_missing (base new : Frame) (targets : List String)
    (r : MRow) (col : String) (hr : r ∈ base.rows) (_hcol : col ∈ targets) :
    updateRow base.cols new targets r ∈ (merge_new base new targets).rows ∧
    (updateRow base.cols new targets r).cells col =
      (if (baseCellOf base r col).is_missing &&
          !(matchedNewCell new targets r col).is_missing
       then matchedNewCell new targets r col else baseCellOf base r col) ∧
    ((baseCellOf base r col).is_missing = false →
      (updateRow base.cols new targets r).cells col = baseCellOf base r col) := by
  have hcell : (updateRow base.cols new targets r).cells col =
      (if (baseCellOf base r col).is_missing &&
          !(matchedNewCell new targets r col).is_missing
       then matchedNewCell new targets r col else baseCellOf base r col) := by
    show mergedCellValue new targets r.key.trim col
        (if base.cols.contains col then r.cells col else .na) = _
    by_cases hct : col ∈ effTargets new targets
    · simp [mergedCellValue, matchedNewCell, baseCellOf, hct]
    · simp [mergedCellValue, matchedNewCell, baseCellOf, hct, CVal.is_missing]
  refine ⟨?_, hcell, ?_⟩
  · exact List.mem_append_left _ (List.mem_map_of_mem _ hr)
  · intro hb
    rw [hcell, hb]
    simp

/-- Witness for C7's theorem at the spec's worked example: blank composition
filled from the new file, everything passing through `merge_new`. -/
theorem merge_new_fills_only_missing_witness :
    updateRow mergeBaseFrame.cols mergeNewFrame ["合金成分"] mergeBaseRow ∈
      (merge_new mergeBaseFrame mergeNewFrame ["合金成分"]).rows ∧
    (updateRow mergeBaseFrame.cols mergeNewFrame ["合金成分"] mergeBaseRow).cells
        "合金成分" =
      (if (baseCellOf mergeBaseFrame mergeBaseRow "合金成分").is_missing &&
          !(matchedNewCell mergeNewFrame ["合金成分"] mergeBaseRow "合金成分").is_missing
       then matchedNewCell mergeNewFrame ["合金成分"] mergeBaseRow "合金成分"
       else baseCellOf mergeBaseFrame mergeBaseRow "合金成分") ∧
    ((baseCellOf mergeBaseFrame mergeBaseRow "合金成分").is_missing = false →
      (updateRow mergeBaseFrame.cols mergeNewFrame ["合金成分"] mergeBaseRow).cells
          "合金成分" =
        baseCellOf mergeBaseFrame mergeBaseRow "合金成分") :=
  merge_new_fills_only_missing mergeBaseFrame mergeNewFrame ["合金成分"]
    mergeBaseRow "合金成分" (by simp [mergeBaseFrame]) (by simp)

/-- C2 counterexample: the tight-bound half of the claim fails on the code.
For a column storing `"1"` and `"nan"`, every non-empty value parses under
Python `float`, so a range is reported; Python's `min`/`max` folds never
adopt the later NaN, so the reported entry is `(1, 1)` — yet the stored value
`"nan"` parses to NaN, which the reported minimum does not bound
(`1 <= nan` is false). -/
theorem properties_tight_bound_claim_false :
    ¬ (∀ (t : Table) (field : String) (lo hi : PyNum),
        (field, (lo, hi)) ∈ properties t →
        ∀ v ∈ colValues t field, isSkipped v = false →
          ∀ p, numericOf v = some p →
            PyNum.le lo p = true ∧ PyNum.le p hi = true) := by
  intro hall
  have h := hall ⟨["x"], [[.text "1"], [.text "nan"]]⟩ "x" (.fin 1) (.fin 1)
      (by decide) (.text "nan") (by decide) (by decide) .nan (by decide)
  exact absurd h.1 (by decide)

/-- C2 (amended): for a non-id/name/category column of the active table,
`/properties` reports a `min`/`max` entry exactly when every non-skipped
(non-NULL, non-empty) stored value parses under Python `float` — NaN and
infinities included — and at least one such value exists.  When an entry is
reported and no stored value parses to NaN, the bounds are tight and
attained: every parsed value `p` satisfies `min <= p <= max` and both
endpoints are parses of stored values.  (A column containing a NaN-parsing
value is still reported, but its fold-computed bounds need not bound that
value, as the counterexample shows.) -/
theorem properties_range_reporting_and_tight_without_nan (t : Table) (field : String)
    (lo hi : PyNum) (hf : field ∈ t.cols)
    (hx : excludedNames.contains (lowerAscii field) = false) :
    ((∃ e, (field, e) ∈ properties t) ↔
        (∀ v ∈ colValues t field, isSkipped v = false → (numericOf v).isSome) ∧
        ∃ v ∈ colValues t field, isSkipped v = false) ∧
    ((field, (lo, hi)) ∈ properties t →
      (∀ v ∈ colValues t field, isSkipped v = false → numericOf v ≠ some PyNum.nan) →
        (∀ v ∈ colValues t field, isSkipped v = false →
            ∀ p, numericOf v = some p →
              PyNum.le lo p = true ∧ PyNum.le p hi = true) ∧
        (∃ v ∈ colValues t field, isSkipped v = false ∧ numericOf v = some lo) ∧
        (∃ v ∈ colValues t field, isSkipped v = false ∧ numericOf v = some hi)) := by
  constructor
  · constructor
    · rintro ⟨e, he⟩
      rw [mem_properties_iff] at he
      obtain ⟨-, -, hent⟩ := he
      cases hcn : columnNumeric (colValues t field) with
      | none =>
          unfold propertiesEntry at hent
          rw [hcn] at hent
          exact Option.noConfusion hent
      | some l =>
          cases l with
          | nil =>
              unfold propertiesEntry at hent
              rw [hcn] at hent
              exact Option.noConfusion hent
          | cons q qs =>
              constructor
              · rw [← columnNumeric_isSome_iff, hcn]
                rfl
              · have hq : q ∈ q :: qs := List.mem_cons_self _ _
                rw [columnNumeric_mem_iff _ _ hcn] at hq
                obtain ⟨v, hv, hvs, -⟩ := hq
                exact ⟨v, hv, hvs⟩
    · rintro ⟨hall, v, hv, hvs⟩
      have hsome : (columnNumeric (colValues t field)).isSome := by
        rw [columnNumeric_isSome_iff]
        exact hall
      obtain ⟨l, hl⟩ := Option.isSome_iff_exists.mp hsome
      obtain ⟨qv, hqv⟩ := Option.isSome_iff_exists.mp (hall v hv hvs)
      have hmem : qv ∈ l := (columnNumeric_mem_iff _ _ hl qv).mpr ⟨v, hv, hvs, hqv⟩
      cases l with
      | nil => cases hmem
      | cons q qs =>
          refine ⟨(pyListMin q qs, pyListMax q qs), ?_⟩
          rw [mem_properties_iff]
          refine ⟨hf, hx, ?_⟩
          simp only [propertiesEntry, hl]
  · intro he hnan
    rw [mem_properties_iff] at he
    obtain ⟨-, -, hent⟩ := he
    cases hcn : columnNumeric (colValues t field) with
    | none =>
          unfold propertiesEntry at hent
          rw [hcn] at hent
          exact Option.noConfusion hent
    | some l =>
        cases l with
        | nil =>
              unfold propertiesEntry at hent
              rw [hcn] at hent
              exact Option.noConfusion hent
        | cons q qs =>
            simp only [propertiesEntry, hcn, Option.some.injEq, Prod.mk.injEq] at hent
            obtain ⟨hlo, hhi⟩ := hent
            have hnomem : ∀ x ∈ q :: qs, x ≠ PyNum.nan := by
              intro x hxm hxeq
              obtain ⟨v, hv, hvs, hvp⟩ := (columnNumeric_mem_iff _ _ hcn x).mp hxm
              exact hnan v hv hvs (hxeq ▸ hvp)
            have hqn : q ≠ PyNum.nan := hnomem q (List.mem_cons_self _ _)
            have hqsn : ∀ x ∈ qs, x ≠ PyNum.nan :=
              fun x hxm => hnomem x (List.mem_cons_of_mem _ hxm)
            refine ⟨?_, ?_, ?_⟩
            · intro v hv hvs p hp
              have hmem : p ∈ q :: qs :=
                (columnNumeric_mem_iff _ _ hcn p).mpr ⟨v, hv, hvs, hp⟩
              exact ⟨hlo ▸ pyListMin_le q qs hqn hqsn p hmem,
                     hhi ▸ pyListMax_ge q qs hqn hqsn p hmem⟩
            · have hm := pyListMin_mem q qs
              rw [hlo] at hm
              exact (columnNumeric_mem_iff _ _ hcn lo).mp hm
            · have hm := pyListMax_mem q qs
              rw [hhi] at hm
              exact (columnNumeric_mem_iff _ _ hcn hi).mp hm

/-- Witness for C2's amended theorem: column `x` of a three-row table holds
`3`, `"7"` and NULL — no NaN — so `/properties` reports the tight, attained
range `[3, 7]`. -/
theorem properties_range_reporting_and_tight_without_nan_witness :
    (∀ v ∈ colValues ⟨["id", "x"], [[.num 1, .num 3], [.num 2, .text "7"], [.num 3, .null]]⟩ "x",
        isSkipped v = false → ∀ p, numericOf v = some p →
          PyNum.le (PyNum.fin 3) p = true ∧ PyNum.le p (PyNum.fin 7) = true) ∧
    (∃ v ∈ colValues ⟨["id", "x"], [[.num 1, .num 3], [.num 2, .text "7"], [.num 3, .null]]⟩ "x",
        isSkipped v = false ∧ numericOf v = some (PyNum.fin 3)) ∧
    (∃ v ∈ colValues ⟨["id", "x"], [[.num 1, .num 3], [.num 2, .text "7"], [.num 3, .null]]⟩ "x",
        isSkipped v = false ∧ numericOf v = some (PyNum.fin 7)) :=
  (properties_range_reporting_and_tight_without_nan
      ⟨["id", "x"], [[.num 1, .num 3], [.num 2, .text "7"], [.num 3, .null]]⟩ "x"
      (.fin 3) (.fin 7) (by decide) (by decide)).2 (by decide) (by decide)

end TiMatweb
